import Mathlib

/-!
# Clarity Engine — formal model of `src/utils/calculator.js`

A shallow embedding of the decision-scoring core: the Scorer
(`calculateScores`), the Narrative Generator (`generateAIExplanation`)
and the Report Exporter (`exportToPDF`).  JavaScript numbers are
modelled as exact rationals; `Number.prototype.toFixed(1)` on the
nonnegative values produced here is round-half-up, modelled with
Mathlib's `round`.  JavaScript's `Array.prototype.sort` is stable and
is modelled by insertion sort on the comparator's total preorder, which
produces the unique sorted-and-stable permutation.
-/

set_option maxRecDepth 16384

namespace Clarity

/-- A decision criterion: `{ id, name, weight }`. -/
structure Criterion where
  id : Nat
  name : String
  weight : ℚ

/-- A candidate option: `{ id, name, scores, isHighRisk }`.  The
`scores` field is the sparse mapping `criterionId → score`; an absent
entry is `none`. -/
structure Option' where
  id : Nat
  name : String
  scores : Nat → Option ℚ
  isHighRisk : Bool

/-- A scored result: the option's own fields plus `finalScore`
(the JS code spreads the option: `{ ...option, finalScore }`). -/
structure Result where
  id : Nat
  name : String
  scores : Nat → Option ℚ
  isHighRisk : Bool
  finalScore : ℚ

/-- `scores[cid] || 0`: a missing entry defaults to `0` (and a present
`0` stays `0`, so `Option.getD` matches the JS `||` on numbers). -/
def getScore (scores : Nat → Option ℚ) (cid : Nat) : ℚ :=
  (scores cid).getD 0

/-- The accumulated `totalWeight`: the sum of all criterion weights. -/
def totalWeight (criteria : List Criterion) : ℚ :=
  (criteria.map fun c => c.weight).sum

/-- The accumulated `totalWeightedScore` for one option: the sum over
the criteria of `score * weight`. -/
def totalWeightedScore (criteria : List Criterion) (o : Option') : ℚ :=
  (criteria.map fun c => getScore o.scores c.id * c.weight).sum

/-- `parseFloat(x.toFixed(1))` on the nonnegative rationals produced by
the scorer: round `x` to one decimal place, half up. -/
def round1 (x : ℚ) : ℚ :=
  (round (x * 10) : ℤ) / 10

/-- The per-option body of `calculateScores` (the function passed to
`options.map`): guard on zero total weight, otherwise normalize to a
0–100 scale, apply the risk penalty to high-risk options, clamp at 0
and round to one decimal. -/
def scoreOption (criteria : List Criterion) (riskFactor : ℚ) (o : Option') : Result :=
  let tws := totalWeightedScore criteria o
  let tw := totalWeight criteria
  if tw = 0 then
    { id := o.id, name := o.name, scores := o.scores, isHighRisk := o.isHighRisk
      finalScore := 0 }
  else
    let baseScore := tws / (tw * 10) * 100
    let penalty := if o.isHighRisk then baseScore * (riskFactor / 100) else 0
    let finalScore := max 0 (baseScore - penalty)
    { id := o.id, name := o.name, scores := o.scores, isHighRisk := o.isHighRisk
      finalScore := round1 finalScore }

/-- The comparator order of `.sort((a, b) => b.key - a.key)`: `a` may
stay before `b` exactly when `k b ≤ k a`. -/
def keyGE {α : Type} (k : α → ℚ) : α → α → Prop := fun a b => k b ≤ k a

instance {α : Type} (k : α → ℚ) : DecidableRel (keyGE k) :=
  fun a b => inferInstanceAs (Decidable (k b ≤ k a))

/-- JavaScript's stable `sort((a, b) => b.key - a.key)`: the unique
descending stable sort, realized by insertion sort. -/
def sortByKeyDesc {α : Type} (k : α → ℚ) (l : List α) : List α :=
  l.insertionSort (keyGE k)

/-- `calculateScores(options, criteria, riskFactor)`: score every
option, then sort descending by `finalScore`. -/
def calculateScores (options : List Option') (criteria : List Criterion)
    (riskFactor : ℚ) : List Result :=
  sortByKeyDesc (fun r => r.finalScore) (options.map (scoreOption criteria riskFactor))

/-- One entry of the `strengths` list built by `generateAIExplanation`:
`{ name: c.name, weightedScore: score * c.weight }`. -/
structure Strength where
  name : String
  weightedScore : ℚ

/-- `x.toFixed(1)`: format a rational with exactly one decimal digit,
rounding half up (JavaScript picks the larger candidate on ties). -/
def toFixed1 (q : ℚ) : String :=
  let n : ℤ := round (q * 10)
  let sign := if n < 0 then "-" else ""
  let m := n.natAbs
  sign ++ toString (m / 10) ++ "." ++ toString (m % 10)

/-- The fixed insufficient-data sentinel returned by
`generateAIExplanation` when its guards fire. -/
def insufficientMsg : String :=
  "Insufficient data. Add at least two options and provide scores to generate a strategic analysis."

/-- `margin = (winner.finalScore - runnerUp.finalScore).toFixed(1)`. -/
def marginStr (w runnerUp : Result) : String :=
  toFixed1 (w.finalScore - runnerUp.finalScore)

/-- The three-way risk clause appended at the end of the analysis. -/
def riskClause (w runnerUp : Result) (margin : String) : String :=
  if w.isHighRisk then
    "WARNING: This option is high risk. Ensure the " ++ margin ++
      "% advantage is worth the potential volatility."
  else if runnerUp.isHighRisk && !w.isHighRisk then
    "This is a stable choice; it outranks competition while maintaining a lower risk profile than \"" ++
      runnerUp.name ++ "\"."
  else
    "This represents a balanced, low-risk recommendation based on your weighted priorities."

/-- The text of `analysis` before the primary-strength name is spliced in. -/
def analysisIntro (w runnerUp : Result) : String :=
  "Strategy Analysis: \"" ++ (w.name ++ ("\" is the optimal path, leading by a margin of " ++
    (marginStr w runnerUp ++ "%. The decision is primarily supported by its performance in \"")))

/-- The text of `analysis` after the primary-strength name. -/
def analysisTail (w runnerUp : Result) : String :=
  "\". " ++ riskClause w runnerUp (marginStr w runnerUp)

/-- The full `analysis` template with the primary-strength name spliced in. -/
def composeAnalysis (w runnerUp : Result) (primary : String) : String :=
  analysisIntro w runnerUp ++ (primary ++ analysisTail w runnerUp)

/-- The element the `strengths` map builds for one criterion:
`{ name: c.name, weightedScore: (winner.scores[c.id] || 0) * c.weight }`. -/
def strengthOfCrit (w : Result) (c : Criterion) : Strength :=
  { name := c.name, weightedScore := getScore w.scores c.id * c.weight }

/-- The `strengths` list: one entry per criterion, stably sorted
descending by `weightedScore` (`.sort((a, b) => b.weightedScore - a.weightedScore)`). -/
def strengthsOf (w : Result) (criteria : List Criterion) : List Strength :=
  sortByKeyDesc (fun s => s.weightedScore) (criteria.map (strengthOfCrit w))

/-- `strengths[0]?.name || "key metrics"`: the head of the sorted
strengths, falling back to `"key metrics"` when the list is empty or
when the head's name is the (falsy) empty string. -/
def primaryStrengthOf (w : Result) (criteria : List Criterion) : String :=
  match (strengthsOf w criteria).head? with
  | some s => if s.name = "" then "key metrics" else s.name
  | none => "key metrics"

/-- `generateAIExplanation(winner, criteria, results)`: guard on a
missing winner, a zero winning score, or fewer than two results; then
compose the analysis with `runnerUp = results[1]`. -/
def generateAIExplanation (winner : Option Result) (criteria : List Criterion)
    (results : List Result) : String :=
  match winner, results with
  | some w, _ :: runnerUp :: _ =>
    if w.finalScore = 0 then insufficientMsg
    else composeAnalysis w runnerUp (primaryStrengthOf w criteria)
  | _, _ => insufficientMsg

/-! ## Report Exporter (`exportToPDF`)

The jsPDF/autoTable library calls are the only effectful or fallible
steps; they are modelled by fault oracles (`constructionFault` for any
throw while the document is being built, `saveFault` for a throw in
`doc.save`).  Everything the source computes purely — the table data,
the top-recommendation block, the sanitized file name — is embedded
exactly. -/

/-- One cell of the exported data table: jsPDF rows mix strings, raw
numbers and the rendered percentage of `finalScore`. -/
inductive TableCell
  | text (s : String)
  | num (q : ℚ)
  | pct (q : ℚ)
deriving DecidableEq

/-- `["Option", ...criteria.map(c => c.name), "Risk", "Score"]`. -/
def tableColumn (criteria : List Criterion) : List String :=
  "Option" :: (criteria.map fun c => c.name) ++ ["Risk", "Score"]

/-- One table row per result: name, the raw per-criterion scores
(default 0), the risk flag, and the final score percentage. -/
def tableRows (criteria : List Criterion) (results : List Result) : List (List TableCell) :=
  results.map fun res =>
    TableCell.text res.name ::
      (criteria.map fun c => TableCell.num (getScore res.scores c.id)) ++
        [TableCell.text (if res.isHighRisk then "Yes" else "No"), TableCell.pct res.finalScore]

/-- `results[0]?.name || "N/A"` (an empty name is falsy in JS). -/
def topNameOf (results : List Result) : String :=
  match results.head? with
  | some r => if r.name = "" then "N/A" else r.name
  | none => "N/A"

/-- `results[0]?.finalScore || 0`. -/
def topScoreOf (results : List Result) : ℚ :=
  match results.head? with
  | some r => r.finalScore
  | none => 0

/-- `title.replace(/\s+/g, '_')` on a character list: every maximal
run of whitespace collapses to a single underscore.  The flag records
whether the previous character was part of a whitespace run. -/
def squashWs (prevWs : Bool) : List Char → List Char
  | [] => []
  | c :: rest =>
    if c.isWhitespace then
      (if prevWs then [] else ['_']) ++ squashWs true rest
    else c :: squashWs false rest

/-- The sanitized artifact name: whitespace runs replaced by `_`, then
the fixed suffix. -/
def exportFilename (title : String) : String :=
  String.mk (squashWs false title.data) ++ "_Clarity_Report.pdf"

/-- The observable steps `exportToPDF` can take, in order. -/
inductive ExportEffect
  | docConstructed (header timestamp topName : String) (topScore : ℚ)
      (narrative : String) (cols : List String) (rows : List (List TableCell))
  | fileSaved (filename : String)
  | errorLogged (msg : String)
  | alertShown (msg : String)
deriving DecidableEq

/-- Failure oracles for the two fallible library phases. -/
structure ExportFaults where
  constructionFault : Option String
  saveFault : Option String

/-- The fixed alert text of the catch block. -/
def exportAlertMsg : String :=
  "Could not generate PDF. Check if jspdf-autotable is installed correctly."

/-- The `try` block of `exportToPDF`: build the document (any jsPDF or
autoTable call may throw), then save it.  Returns the effects that
happened together with the exception, if one escaped the block. -/
def exportBody (faults : ExportFaults) (timestamp title : String)
    (criteria : List Criterion) (results : List Result) (narrative : String) :
    List ExportEffect × Option String :=
  match faults.constructionFault with
  | some e => ([], some e)
  | none =>
    let fx := [ExportEffect.docConstructed "CLARITY ENGINE REPORT" timestamp
      (topNameOf results) (topScoreOf results) narrative
      (tableColumn criteria) (tableRows criteria results)]
    match faults.saveFault with
    | some e => (fx, some e)
    | none => (fx ++ [ExportEffect.fileSaved (exportFilename title)], none)

/-- `exportToPDF(decisionTitle, criteria, results, aiSummary)`: the
`try` block wrapped in the `catch` that logs the error and shows the
alert.  The second component is the exception propagated to the
caller — always `none`, because the catch swallows everything. -/
def exportToPDF (faults : ExportFaults) (timestamp title : String)
    (criteria : List Criterion) (results : List Result) (narrative : String) :
    List ExportEffect × Option String :=
  match exportBody faults timestamp title criteria results narrative with
  | (fx, none) => (fx, none)
  | (fx, some e) => (fx ++ [ExportEffect.errorLogged ("PDF generation error: " ++ e),
      ExportEffect.alertShown exportAlertMsg], none)

/-! ## Substring containment

`strContains s sub` decides whether `sub` occurs contiguously in `s`;
it is the formal reading of "the rationale contains the clause". -/

/-- Does `sub` occur as a contiguous run inside `l`? -/
def hasSegment (sub : List Char) : List Char → Bool
  | [] => sub.isEmpty
  | c :: rest => sub.isPrefixOf (c :: rest) || hasSegment sub rest

/-- String-level containment of `sub` inside `s`. -/
def strContains (s sub : String) : Bool :=
  hasSegment sub.data s.data

-- sanity check: spec example 1
example :
    ((calculateScores
      [{ id := 101, name := "A", scores := fun cid => if cid = 1 then some 10 else none,
         isHighRisk := false },
       { id := 102, name := "B", scores := fun cid => if cid = 1 then some 5 else none,
         isHighRisk := false }]
      [{ id := 1, name := "Impact", weight := 8 }] 15).map fun r => r.finalScore)
    = [100, 50] := by with_unfolding_all decide

-- sanity check: spec example 2 (high-risk penalty)
example :
    ((calculateScores
      [{ id := 101, name := "A", scores := fun cid => if cid = 1 then some 10 else none,
         isHighRisk := true },
       { id := 102, name := "B", scores := fun cid => if cid = 1 then some 5 else none,
         isHighRisk := false }]
      [{ id := 1, name := "Impact", weight := 8 }] 20).map fun r => r.finalScore)
    = [80, 50] := by with_unfolding_all decide

/-! ## Generic facts about the stable descending sort -/

section SortLemmas

variable {α : Type} (k : α → ℚ)

theorem perm_sortByKeyDesc (l : List α) : (sortByKeyDesc k l).Perm l :=
  List.perm_insertionSort _ l

theorem sorted_sortByKeyDesc (l : List α) :
    (sortByKeyDesc k l).Sorted (keyGE k) := by
  haveI : IsTotal α (keyGE k) := ⟨fun a b => le_total (k b) (k a)⟩
  haveI : IsTrans α (keyGE k) := ⟨fun a b c h1 h2 => le_trans h2 h1⟩
  exact List.sorted_insertionSort _ l

theorem filter_orderedInsert_key (q : ℚ) (a : α) (l : List α) :
    (List.orderedInsert (keyGE k) a l).filter (fun x => decide (k x = q)) =
      (a :: l).filter (fun x => decide (k x = q)) := by
  induction l with
  | nil => rfl
  | cons b t ih =>
    by_cases h : keyGE k a b
    · rw [List.orderedInsert, if_pos h]
    · rw [List.orderedInsert, if_neg h]
      have hab : k a < k b := not_le.mp h
      by_cases hb : k b = q
      · have ha : ¬ k a = q := by rw [← hb]; exact ne_of_lt hab
        simp [List.filter_cons, ha, hb, ih]
      · by_cases ha : k a = q <;>
          simp [List.filter_cons, ha, hb, ih]

theorem filter_sortByKeyDesc (q : ℚ) (l : List α) :
    (sortByKeyDesc k l).filter (fun x => decide (k x = q)) =
      l.filter (fun x => decide (k x = q)) := by
  induction l with
  | nil => rfl
  | cons a t ih =>
    have step : sortByKeyDesc k (a :: t) =
        List.orderedInsert (keyGE k) a (sortByKeyDesc k t) := rfl
    rw [step, filter_orderedInsert_key]
    by_cases ha : k a = q <;> simp [List.filter_cons, ha, ih]

theorem find?_eq_head?_filterList (p : α → Bool) (l : List α) :
    l.find? p = (l.filter p).head? := by
  induction l with
  | nil => rfl
  | cons a t ih =>
    cases h : p a with
    | true =>
      rw [List.find?_cons_of_pos _ h, List.filter_cons_of_pos h, List.head?_cons]
    | false =>
      rw [List.find?_cons_of_neg _ (by simp [h]), List.filter_cons_of_neg (by simp [h]), ih]

/-- The head of the stable descending sort dominates every element and
is found at the first input position whose key attains the maximum. -/
theorem head_sortByKeyDesc (l : List α) (x : α)
    (hx : (sortByKeyDesc k l).head? = some x) :
    (∀ y ∈ l, k y ≤ k x) ∧ l.find? (fun y => decide (k y = k x)) = some x := by
  obtain ⟨t, ht⟩ : ∃ t, sortByKeyDesc k l = x :: t := by
    cases hs : sortByKeyDesc k l with
    | nil => rw [hs] at hx; cases hx
    | cons a t =>
      rw [hs, List.head?_cons, Option.some.injEq] at hx
      subst hx
      exact ⟨t, rfl⟩
  have hperm : (sortByKeyDesc k l).Perm l := perm_sortByKeyDesc k l
  have hsorted := sorted_sortByKeyDesc k l
  rw [ht] at hperm hsorted
  have hdom : ∀ y ∈ l, k y ≤ k x := by
    intro y hy
    have hmem : y ∈ x :: t := hperm.mem_iff.mpr hy
    rw [List.mem_cons] at hmem
    rcases hmem with rfl | h
    · exact le_rfl
    · exact List.rel_of_sorted_cons hsorted y h
  refine ⟨hdom, ?_⟩
  have hfx : (l.filter fun y => decide (k y = k x)) =
      ((sortByKeyDesc k l).filter fun y => decide (k y = k x)) :=
    (filter_sortByKeyDesc k (k x) l).symm
  rw [find?_eq_head?_filterList, hfx, ht]
  simp [List.filter_cons]

end SortLemmas

/-! ## Generic facts about substring containment -/

theorem isPrefixOf_append_self (a b : List Char) : a.isPrefixOf (a ++ b) = true := by
  induction a with
  | nil => simp [List.isPrefixOf]
  | cons c t ih => simp [List.isPrefixOf, ih]

theorem hasSegment_nil_left (l : List Char) : hasSegment [] l = true := by
  induction l with
  | nil => rfl
  | cons c t ih => simp [hasSegment, List.isPrefixOf]

theorem hasSegment_append (sub pre post : List Char) :
    hasSegment sub (pre ++ (sub ++ post)) = true := by
  induction pre with
  | nil =>
    cases sub with
    | nil => exact hasSegment_nil_left _
    | cons c t =>
      simp only [List.nil_append, List.cons_append, hasSegment]
      simp [isPrefixOf_append_self (c :: t) post]
  | cons c t ih =>
    simp only [List.cons_append, hasSegment]
    simp [ih]

theorem strContains_of_split (s pre mid post : String)
    (h : s = pre ++ (mid ++ post)) : strContains s mid = true := by
  rw [strContains, h, String.data_append, String.data_append]
  exact hasSegment_append mid.data pre.data post.data

/-- Containment from an explicit decomposition of the character data. -/
theorem strContains_of_split_data (s pre mid post : String)
    (h : s.data = pre.data ++ (mid.data ++ post.data)) : strContains s mid = true := by
  rw [strContains, h]
  exact hasSegment_append mid.data pre.data post.data

/-- Two strings whose first characters differ are different. -/
theorem ne_of_head_char {a b : String} {c d : Char}
    (ha : a.data.head? = some c) (hb : b.data.head? = some d) (hcd : c ≠ d) :
    a ≠ b := by
  intro h
  rw [h, hb, Option.some.injEq] at ha
  exact hcd ha.symm

/-! ## Facts about `round1` and `scoreOption` -/

theorem round1_mono {x y : ℚ} (h : x ≤ y) : round1 x ≤ round1 y := by
  have hr : round (x * 10) ≤ round (y * 10) := by
    rw [round_eq, round_eq]
    exact Int.floor_le_floor (by linarith)
  rw [round1, round1]
  have : ((round (x * 10) : ℤ) : ℚ) ≤ ((round (y * 10) : ℤ) : ℚ) := by exact_mod_cast hr
  linarith

theorem round1_nonneg {x : ℚ} (h : 0 ≤ x) : 0 ≤ round1 x := by
  have h0 : round1 (0 : ℚ) = 0 := by
    rw [round1]
    norm_num
  rw [← h0]
  exact round1_mono h

theorem round1_le_hundred {x : ℚ} (h : x ≤ 100) : round1 x ≤ 100 := by
  have h100 : round1 (100 : ℚ) = 100 := by
    rw [round1]
    have : ((100 : ℚ) * 10) = ((1000 : ℤ) : ℚ) := by norm_num
    rw [this, round_intCast]
    norm_num
  rw [← h100]
  exact round1_mono h

theorem totalWeight_nonneg (criteria : List Criterion)
    (hw : ∀ c ∈ criteria, 0 ≤ c.weight) : 0 ≤ totalWeight criteria := by
  apply List.sum_nonneg
  intro x hx
  rcases List.mem_map.mp hx with ⟨c, hc, rfl⟩
  exact hw c hc

/-- Range of a single scored option, from per-criterion bounds. -/
theorem scoreOption_range (criteria : List Criterion) (riskFactor : ℚ) (o : Option')
    (hw : ∀ c ∈ criteria, 0 ≤ c.weight)
    (hs0 : ∀ c ∈ criteria, 0 ≤ getScore o.scores c.id)
    (hs10 : ∀ c ∈ criteria, getScore o.scores c.id ≤ 10)
    (hr : 0 ≤ riskFactor) :
    0 ≤ (scoreOption criteria riskFactor o).finalScore ∧
      (scoreOption criteria riskFactor o).finalScore ≤ 100 := by
  by_cases htw : totalWeight criteria = 0
  · simp [scoreOption, htw]
  · have htw0 : 0 < totalWeight criteria :=
      lt_of_le_of_ne (totalWeight_nonneg criteria hw) (Ne.symm htw)
    have htws0 : 0 ≤ totalWeightedScore criteria o := by
      apply List.sum_nonneg
      intro x hx
      rcases List.mem_map.mp hx with ⟨c, hc, rfl⟩
      exact mul_nonneg (hs0 c hc) (hw c hc)
    have htws10 : totalWeightedScore criteria o ≤ 10 * totalWeight criteria := by
      have hle : totalWeightedScore criteria o ≤
          (criteria.map fun c => 10 * c.weight).sum := by
        apply List.sum_le_sum
        intro c hc
        exact mul_le_mul_of_nonneg_right (hs10 c hc) (hw c hc)
      calc totalWeightedScore criteria o ≤ (criteria.map fun c => 10 * c.weight).sum := hle
        _ = 10 * totalWeight criteria := by
          rw [totalWeight]
          exact List.sum_map_mul_left criteria (fun c => c.weight) 10
    set tws := totalWeightedScore criteria o with htws
    set tw := totalWeight criteria with htwdef
    have hbase0 : 0 ≤ tws / (tw * 10) * 100 :=
      mul_nonneg (div_nonneg htws0 (by positivity)) (by norm_num)
    have hbase100 : tws / (tw * 10) * 100 ≤ 100 := by
      have h1 : tws / (tw * 10) ≤ 1 := by
        rw [div_le_one (by positivity)]
        linarith
      linarith
    set base := tws / (tw * 10) * 100 with hbasedef
    have hpen : 0 ≤ (if o.isHighRisk then base * (riskFactor / 100) else 0) := by
      split
      · exact mul_nonneg hbase0 (by positivity)
      · exact le_refl 0
    constructor
    · simp only [scoreOption, if_neg htw]
      exact round1_nonneg (le_max_left 0 _)
    · simp only [scoreOption, if_neg htw]
      apply round1_le_hundred
      apply max_le (by norm_num)
      linarith

/-- C8 helper: both branches of `scoreOption` copy the option's own
fields unchanged. -/
theorem scoreOption_fields (criteria : List Criterion) (riskFactor : ℚ) (o : Option') :
    (scoreOption criteria riskFactor o).id = o.id ∧
      (scoreOption criteria riskFactor o).name = o.name ∧
      (scoreOption criteria riskFactor o).scores = o.scores ∧
      (scoreOption criteria riskFactor o).isHighRisk = o.isHighRisk := by
  by_cases htw : totalWeight criteria = 0 <;> simp [scoreOption, htw]

/-- C2 (confirmed).  For every input, `calculateScores` returns the
scored options sorted descending by `finalScore`; the output is a
permutation of the per-option scores, and for every score value `q`
the sublist of results with `finalScore = q` is exactly the sublist of
the (input-ordered) scored options with that value, i.e. equal-score
entries keep their relative input order: the sort is stable. -/
theorem calculateScores_sorted_stable (options : List Option') (criteria : List Criterion)
    (riskFactor : ℚ) :
    List.Sorted (fun a b => b.finalScore ≤ a.finalScore)
        (calculateScores options criteria riskFactor) ∧
      (calculateScores options criteria riskFactor).Perm
        (options.map (scoreOption criteria riskFactor)) ∧
      ∀ q : ℚ,
        (calculateScores options criteria riskFactor).filter
            (fun r => decide (r.finalScore = q)) =
          (options.map (scoreOption criteria riskFactor)).filter
            (fun r => decide (r.finalScore = q)) :=
  ⟨sorted_sortByKeyDesc _ _, perm_sortByKeyDesc _ _, fun q => filter_sortByKeyDesc _ q _⟩

/-- C3 (confirmed).  With integer weights in `[1, 10]`, integer
present scores in `[0, 10]` and an integer risk factor in `[0, 30]`,
every result's `finalScore` lies in `[0, 100]`. -/
theorem calculateScores_finalScore_range (options : List Option')
    (criteria : List Criterion) (riskFactor : ℚ)
    (hw : ∀ c ∈ criteria, (∃ n : ℤ, c.weight = (n : ℚ)) ∧ 1 ≤ c.weight ∧ c.weight ≤ 10)
    (hs : ∀ o ∈ options, ∀ cid : Nat, ∀ v : ℚ, o.scores cid = some v →
      (∃ n : ℤ, v = (n : ℚ)) ∧ 0 ≤ v ∧ v ≤ 10)
    (hr : (∃ n : ℤ, riskFactor = (n : ℚ)) ∧ 0 ≤ riskFactor ∧ riskFactor ≤ 30) :
    ∀ res ∈ calculateScores options criteria riskFactor,
      0 ≤ res.finalScore ∧ res.finalScore ≤ 100 := by
  intro res hres
  have hmem : res ∈ options.map (scoreOption criteria riskFactor) :=
    (perm_sortByKeyDesc _ _).mem_iff.mp hres
  rcases List.mem_map.mp hmem with ⟨o, ho, rfl⟩
  apply scoreOption_range
  · exact fun c hc => le_trans (by norm_num) (hw c hc).2.1
  · intro c hc
    rw [getScore]
    cases hsc : o.scores c.id with
    | none => simp
    | some v => simpa using (hs o ho c.id v hsc).2.1
  · intro c hc
    rw [getScore]
    cases hsc : o.scores c.id with
    | none => simp
    | some v => simpa using (hs o ho c.id v hsc).2.2
  · exact hr.2.1

/-- C4 helper: a list in which every element has the same key is left
unchanged by the stable descending sort. -/
theorem sortByKeyDesc_const_key {α : Type} (k : α → ℚ) (l : List α) (c : ℚ)
    (h : ∀ x ∈ l, k x = c) : sortByKeyDesc k l = l := by
  have h3 : (sortByKeyDesc k l).filter (fun x => decide (k x = c)) = sortByKeyDesc k l :=
    List.filter_eq_self.mpr fun a ha => by
      simp [h a ((perm_sortByKeyDesc k l).mem_iff.mp ha)]
  have h2 : l.filter (fun x => decide (k x = c)) = l :=
    List.filter_eq_self.mpr fun a ha => by simp [h a ha]
  rw [← h3, filter_sortByKeyDesc, h2]

/-- C4 (confirmed).  When the criteria weights sum to zero (in
particular for empty criteria), every option comes back in input
order with `finalScore = 0` and all other fields unchanged. -/
theorem calculateScores_zero_totalWeight (options : List Option')
    (criteria : List Criterion) (riskFactor : ℚ)
    (h : totalWeight criteria = 0) :
    calculateScores options criteria riskFactor =
      options.map fun o =>
        { id := o.id, name := o.name, scores := o.scores, isHighRisk := o.isHighRisk
          finalScore := 0 } := by
  have hmap : options.map (scoreOption criteria riskFactor) =
      options.map fun o =>
        { id := o.id, name := o.name, scores := o.scores, isHighRisk := o.isHighRisk
          finalScore := (0 : ℚ) } :=
    List.map_congr_left fun o _ => by simp [scoreOption, h]
  rw [calculateScores, hmap]
  apply sortByKeyDesc_const_key
  intro x hx
  rcases List.mem_map.mp hx with ⟨o, ho, rfl⟩
  rfl

/-- C5 (confirmed).  For fixed criteria and option, raising the risk
factor within `[0, 30]` never raises the final score of a high-risk
option, and leaves a non-high-risk option's result unchanged. -/
theorem scoreOption_riskFactor_mono (criteria : List Criterion) (o : Option') (r1 r2 : ℚ)
    (h0 : 0 ≤ r1) (h12 : r1 ≤ r2) (h30 : r2 ≤ 30) :
    (o.isHighRisk = true →
      (scoreOption criteria r2 o).finalScore ≤ (scoreOption criteria r1 o).finalScore) ∧
      (o.isHighRisk = false → scoreOption criteria r2 o = scoreOption criteria r1 o) := by
  by_cases htw : totalWeight criteria = 0
  · exact ⟨fun _ => by simp [scoreOption, htw], fun _ => by simp [scoreOption, htw]⟩
  · constructor
    · intro hhr
      simp only [scoreOption, if_neg htw, hhr, if_true]
      apply round1_mono
      set B := totalWeightedScore criteria o / (totalWeight criteria * 10) * 100 with hB
      rcases le_or_lt B 0 with hb | hb
      · apply max_le (le_max_left 0 _)
        have hfac : (0 : ℚ) ≤ 1 - r2 / 100 := by linarith
        have hneg : B - B * (r2 / 100) ≤ 0 := by nlinarith
        exact hneg.trans (le_max_left 0 _)
      · apply max_le_max le_rfl
        have hmul : B * (r1 / 100) ≤ B * (r2 / 100) := by
          apply mul_le_mul_of_nonneg_left _ hb.le
          linarith
        linarith
    · intro hhr
      simp [scoreOption, if_neg htw, hhr]

/-- C8 (confirmed).  Before sorting, the `i`-th result is the `i`-th
option with only `finalScore` added: `id`, `name`, the `scores`
mapping and `isHighRisk` are copied unchanged. -/
theorem mapped_result_preserves_fields (options : List Option') (criteria : List Criterion)
    (riskFactor : ℚ) (i : ℕ) (h : i < options.length) :
    ((options.map (scoreOption criteria riskFactor)).get ⟨i, by simpa using h⟩).id
          = (options.get ⟨i, h⟩).id ∧
      ((options.map (scoreOption criteria riskFactor)).get ⟨i, by simpa using h⟩).name
          = (options.get ⟨i, h⟩).name ∧
      ((options.map (scoreOption criteria riskFactor)).get ⟨i, by simpa using h⟩).scores
          = (options.get ⟨i, h⟩).scores ∧
      ((options.map (scoreOption criteria riskFactor)).get ⟨i, by simpa using h⟩).isHighRisk
          = (options.get ⟨i, h⟩).isHighRisk := by
  have hg : (options.map (scoreOption criteria riskFactor)).get ⟨i, by simpa using h⟩
      = scoreOption criteria riskFactor (options.get ⟨i, h⟩) := by
    simp
  rw [hg]
  exact scoreOption_fields _ _ _

/-! ## Narrative Generator claims -/

theorem composeAnalysis_head (w ru : Result) (p : String) :
    (composeAnalysis w ru p).data.head? = some 'S' := by
  rw [composeAnalysis, analysisIntro, String.data_append, String.data_append]
  rfl

theorem composeAnalysis_ne_insufficient (w ru : Result) (p : String) :
    composeAnalysis w ru p ≠ insufficientMsg :=
  ne_of_head_char (composeAnalysis_head w ru p) rfl (by decide)

/-- C6 (confirmed).  `generateAIExplanation` returns the fixed
insufficient-data sentinel exactly when the winner is absent, the
winner's score is zero, or there are fewer than two results; in every
other case the composed analysis differs from the sentinel. -/
theorem generateAIExplanation_insufficient_iff (winner : Option Result)
    (criteria : List Criterion) (results : List Result) :
    generateAIExplanation winner criteria results = insufficientMsg ↔
      winner = none ∨ (∃ w, winner = some w ∧ w.finalScore = 0) ∨
        results.length < 2 := by
  cases winner with
  | none => simp [generateAIExplanation]
  | some w =>
    cases results with
    | nil => simp [generateAIExplanation]
    | cons r0 rest =>
      cases rest with
      | nil => simp [generateAIExplanation]
      | cons ru rest2 =>
        by_cases hz : w.finalScore = 0
        · simp [generateAIExplanation, hz]
        · have hne := composeAnalysis_ne_insufficient w ru (primaryStrengthOf w criteria)
          simp [generateAIExplanation, hz, hne]

/-- C10 (confirmed).  With an empty criteria list but both guards
passed, the narrative is still the full analysis, with the fallback
phrase `"key metrics"` in the primary-strength slot — not the
sentinel, and the fallback phrase occurs in the output. -/
theorem generateAIExplanation_empty_criteria (w r0 ru : Result) (rest : List Result)
    (hz : w.finalScore ≠ 0) :
    generateAIExplanation (some w) [] (r0 :: ru :: rest) =
        composeAnalysis w ru "key metrics" ∧
      generateAIExplanation (some w) [] (r0 :: ru :: rest) ≠ insufficientMsg ∧
      strContains (generateAIExplanation (some w) [] (r0 :: ru :: rest))
        "key metrics" = true := by
  have he : generateAIExplanation (some w) [] (r0 :: ru :: rest) =
      composeAnalysis w ru "key metrics" := by
    show (if w.finalScore = 0 then insufficientMsg
      else composeAnalysis w ru (primaryStrengthOf w [])) =
        composeAnalysis w ru "key metrics"
    rw [if_neg hz]
    rfl
  refine ⟨he, he ▸ composeAnalysis_ne_insufficient w ru _, ?_⟩
  apply strContains_of_split_data _ (analysisIntro w ru) _ (analysisTail w ru)
  rw [he]
  rw [composeAnalysis, String.data_append, String.data_append]

/-- C1 (corrected), counterexample input: winner and runner-up both
high-risk, passing every guard. -/
def cexWinnerC1 : Result :=
  { id := 1, name := "Alpha", scores := fun _ => none, isHighRisk := true, finalScore := 80 }

/-- C1 counterexample runner-up. -/
def cexRunnerUpC1 : Result :=
  { id := 2, name := "Beta", scores := fun _ => none, isHighRisk := true, finalScore := 50 }

/-- C1 counterexample criteria. -/
def cexCriteriaC1 : List Criterion := [{ id := 1, name := "Impact", weight := 8 }]

/-- C1 (corrected), counterexample.  With winner and runner-up both
high-risk the rationale does NOT contain the neutral "balanced,
low-risk recommendation" clause — the `winner.isHighRisk` branch wins
and the cautionary WARNING clause appears instead. -/
theorem generateAIExplanation_both_high_risk_cex :
    strContains
        (generateAIExplanation (some cexWinnerC1) cexCriteriaC1 [cexWinnerC1, cexRunnerUpC1])
        "balanced, low-risk recommendation" = false ∧
      strContains
        (generateAIExplanation (some cexWinnerC1) cexCriteriaC1 [cexWinnerC1, cexRunnerUpC1])
        "WARNING: This option is high risk." = true := by
  with_unfolding_all decide

/-- C1 (amended, confirmed).  When winner and runner-up are both
high-risk (and the guards pass), the returned rationale contains the
high-risk cautionary WARNING clause referencing the margin: the
`winner.isHighRisk` branch takes precedence over the neutral one. -/
theorem generateAIExplanation_both_high_risk_warning (w r0 ru : Result)
    (rest : List Result) (criteria : List Criterion)
    (hw : w.isHighRisk = true) (hz : w.finalScore ≠ 0) (hr : ru.isHighRisk = true) :
    strContains (generateAIExplanation (some w) criteria (r0 :: ru :: rest))
      ("WARNING: This option is high risk. Ensure the " ++ (marginStr w ru ++
        "% advantage is worth the potential volatility.")) = true := by
  have he : generateAIExplanation (some w) criteria (r0 :: ru :: rest) =
      composeAnalysis w ru (primaryStrengthOf w criteria) := by
    show (if w.finalScore = 0 then insufficientMsg
      else composeAnalysis w ru (primaryStrengthOf w criteria)) = _
    rw [if_neg hz]
  have hclause : riskClause w ru (marginStr w ru) =
      "WARNING: This option is high risk. Ensure the " ++ (marginStr w ru ++
        "% advantage is worth the potential volatility.") := by
    rw [riskClause, if_pos (by simp [hw])]
    exact String.append_assoc _ _ _
  apply strContains_of_split_data _
    (analysisIntro w ru ++ (primaryStrengthOf w criteria ++ "\". ")) _ ""
  rw [he, composeAnalysis, analysisTail, hclause]
  simp [String.data_append, List.append_assoc]

/-- A successful `find?` yields the first index whose element
satisfies the predicate. -/
theorem find?_index_of_eq_some {α : Type} {p : α → Bool} {l : List α} {x : α}
    (h : l.find? p = some x) :
    ∃ i, ∃ hi : i < l.length, l.get ⟨i, hi⟩ = x ∧ p x = true ∧
      ∀ j, ∀ hj : j < l.length, j < i → p (l.get ⟨j, hj⟩) = false := by
  induction l with
  | nil => cases h
  | cons a t ih =>
    cases hpa : p a with
    | true =>
      rw [List.find?_cons_of_pos _ hpa] at h
      injection h with h
      refine ⟨0, Nat.succ_pos _, h, h ▸ hpa, ?_⟩
      intro j hj hj0
      omega
    | false =>
      rw [List.find?_cons_of_neg _ (by simp [hpa])] at h
      rcases ih h with ⟨i, hi, hget, hpx, hbefore⟩
      refine ⟨i + 1, Nat.succ_lt_succ hi, hget, hpx, ?_⟩
      intro j hj hji
      cases j with
      | zero => exact hpa
      | succ j2 => exact hbefore j2 (by omega) (by omega)

/-- C7 (amended, confirmed).  With non-empty criteria whose names are
non-empty, the primary-strength name in the rationale is the name of
the first criterion (in input order) whose weighted score
`winner.scores[c.id] * c.weight` is maximal; every earlier criterion
is strictly smaller. -/
theorem primaryStrength_first_max (w : Result) (criteria : List Criterion)
    (hne : criteria ≠ [])
    (hnames : ∀ c ∈ criteria, c.name ≠ "") :
    ∃ i, ∃ hi : i < criteria.length,
      primaryStrengthOf w criteria = (criteria.get ⟨i, hi⟩).name ∧
        (∀ c ∈ criteria, getScore w.scores c.id * c.weight ≤
          getScore w.scores (criteria.get ⟨i, hi⟩).id * (criteria.get ⟨i, hi⟩).weight) ∧
        ∀ j, ∀ hj : j < criteria.length, j < i →
          getScore w.scores (criteria.get ⟨j, hj⟩).id * (criteria.get ⟨j, hj⟩).weight <
            getScore w.scores (criteria.get ⟨i, hi⟩).id * (criteria.get ⟨i, hi⟩).weight := by
  obtain ⟨s, t, hsort⟩ : ∃ s t,
      sortByKeyDesc (fun x => x.weightedScore) (criteria.map (strengthOfCrit w)) = s :: t := by
    cases hs : sortByKeyDesc (fun x => x.weightedScore) (criteria.map (strengthOfCrit w)) with
    | nil =>
      exfalso
      have hl := (perm_sortByKeyDesc (fun x : Strength => x.weightedScore)
        (criteria.map (strengthOfCrit w))).length_eq
      rw [hs, List.length_map] at hl
      exact hne (List.length_eq_zero.mp hl.symm)
    | cons s t => exact ⟨s, t, rfl⟩
  have hhead : (sortByKeyDesc (fun x => x.weightedScore)
      (criteria.map (strengthOfCrit w))).head? = some s := by rw [hsort]; rfl
  obtain ⟨hdom, hfind⟩ := head_sortByKeyDesc _ _ s hhead
  obtain ⟨c0, hc0find, hc0s⟩ : ∃ c0,
      criteria.find? (fun c =>
        decide ((strengthOfCrit w c).weightedScore = s.weightedScore)) = some c0 ∧
        strengthOfCrit w c0 = s := by
    rw [List.find?_map] at hfind
    cases hf : criteria.find?
        (fun c => decide ((strengthOfCrit w c).weightedScore = s.weightedScore)) with
    | none =>
      rw [show ((fun y : Strength => decide (y.weightedScore = s.weightedScore)) ∘
        strengthOfCrit w) = fun c =>
          decide ((strengthOfCrit w c).weightedScore = s.weightedScore) from rfl, hf] at hfind
      cases hfind
    | some c0 =>
      rw [show ((fun y : Strength => decide (y.weightedScore = s.weightedScore)) ∘
        strengthOfCrit w) = fun c =>
          decide ((strengthOfCrit w c).weightedScore = s.weightedScore) from rfl, hf] at hfind
      exact ⟨c0, rfl, by injection hfind⟩
  obtain ⟨i, hi, hget, hpx, hbefore⟩ := find?_index_of_eq_some hc0find
  refine ⟨i, hi, ?_, ?_, ?_⟩
  · have hpname : (criteria.get ⟨i, hi⟩).name ≠ "" :=
      hnames _ (criteria.get_mem _ _)
    rw [primaryStrengthOf]
    have hstr : strengthsOf w criteria = s :: t := hsort
    rw [hstr]
    simp only [List.head?_cons]
    rw [← hc0s, ← hget]
    exact if_neg hpname
  · intro c hc
    have hle := hdom (strengthOfCrit w c) (List.mem_map_of_mem (strengthOfCrit w) hc)
    rw [← hc0s, ← hget] at hle
    exact hle
  · intro j hj hji
    have hjb := hbefore j hj hji
    have hle := hdom (strengthOfCrit w (criteria.get ⟨j, hj⟩))
      (List.mem_map_of_mem (strengthOfCrit w) (criteria.get_mem _ _))
    have hne2 : (strengthOfCrit w (criteria.get ⟨j, hj⟩)).weightedScore ≠
        s.weightedScore := by
      intro hcontra
      rw [decide_eq_true hcontra] at hjb
      cases hjb
    have hlt := lt_of_le_of_ne hle hne2
    rw [← hc0s, ← hget] at hlt
    exact hlt

/-- C7 counterexample winner: its only criterion scores 10. -/
def cexWinnerC7 : Result :=
  { id := 1, name := "Alpha", scores := fun cid => if cid = 1 then some 10 else none,
    isHighRisk := false, finalScore := 80 }

/-- C7 counterexample runner-up. -/
def cexRunnerUpC7 : Result :=
  { id := 2, name := "Beta", scores := fun _ => none, isHighRisk := false, finalScore := 50 }

/-- C7 counterexample criteria: the unique (hence first maximal)
criterion has the empty string as its name. -/
def cexCriteriaC7 : List Criterion := [{ id := 1, name := "", weight := 5 }]

/-- C7 (corrected), counterexample.  The unique criterion is the first
maximal one, but its name is the empty string, which is falsy in
JavaScript, so `strengths[0]?.name || "key metrics"` substitutes the
fallback: the name spliced into the rationale is `"key metrics"`, not
the criterion's name. -/
theorem primaryStrength_empty_name_cex :
    primaryStrengthOf cexWinnerC7 cexCriteriaC7 = "key metrics" ∧
      (cexCriteriaC7.get ⟨0, by decide⟩).name = "" ∧
      primaryStrengthOf cexWinnerC7 cexCriteriaC7 ≠ (cexCriteriaC7.get ⟨0, by decide⟩).name ∧
      generateAIExplanation (some cexWinnerC7) cexCriteriaC7 [cexWinnerC7, cexRunnerUpC7] =
        composeAnalysis cexWinnerC7 cexRunnerUpC7 "key metrics" := by
  with_unfolding_all decide

/-! ## Report Exporter claim -/

/-- C9 (confirmed).  `exportToPDF` never propagates an exception: for
every fault configuration the returned exception component is `none`;
a construction fault means the file-save step is never reached and the
error is logged and alerted; a save fault is likewise logged and
alerted. -/
theorem exportToPDF_contains_failures (faults : ExportFaults) (timestamp title : String)
    (criteria : List Criterion) (results : List Result) (narrative : String) :
    (exportToPDF faults timestamp title criteria results narrative).2 = none ∧
      (∀ e, faults.constructionFault = some e →
        (∀ f, ExportEffect.fileSaved f ∉
            (exportToPDF faults timestamp title criteria results narrative).1) ∧
          ExportEffect.errorLogged ("PDF generation error: " ++ e) ∈
            (exportToPDF faults timestamp title criteria results narrative).1 ∧
          ExportEffect.alertShown exportAlertMsg ∈
            (exportToPDF faults timestamp title criteria results narrative).1) ∧
      (∀ e, faults.constructionFault = none → faults.saveFault = some e →
        ExportEffect.errorLogged ("PDF generation error: " ++ e) ∈
            (exportToPDF faults timestamp title criteria results narrative).1 ∧
          ExportEffect.alertShown exportAlertMsg ∈
            (exportToPDF faults timestamp title criteria results narrative).1) := by
  rcases faults with ⟨cf, sf⟩
  cases cf with
  | some e =>
    refine ⟨rfl, ?_, ?_⟩
    · intro e2 he2
      injection he2 with he2
      subst he2
      refine ⟨fun f => ?_, ?_, ?_⟩ <;> simp [exportToPDF, exportBody]
    · intro e2 hnone
      cases hnone
  | none =>
    cases sf with
    | some e =>
      refine ⟨rfl, ?_, ?_⟩
      · intro e2 hsome
        cases hsome
      · intro e2 _ hs2
        injection hs2 with hs2
        subst hs2
        constructor <;> simp [exportToPDF, exportBody]
    | none =>
      refine ⟨rfl, ?_, ?_⟩
      · intro e2 hsome
        cases hsome
      · intro e2 _ hs2
        cases hs2

/-! ## Witness fixtures and witnesses -/

/-- Witness fixture: spec example option A. -/
def exOptionA : Option' :=
  { id := 101, name := "A", scores := fun cid => if cid = 1 then some 10 else none,
    isHighRisk := false }

/-- Witness fixture: spec example option B. -/
def exOptionB : Option' :=
  { id := 102, name := "B", scores := fun cid => if cid = 1 then some 5 else none,
    isHighRisk := false }

/-- Witness fixture: a high-risk option scoring 7 on every criterion. -/
def exOptionC : Option' :=
  { id := 103, name := "C", scores := fun _ => some 7, isHighRisk := true }

/-- Witness fixture: spec example criteria. -/
def exCriteria : List Criterion := [{ id := 1, name := "Impact", weight := 8 }]

/-- Witness fixture: two criteria with distinct names and weights. -/
def exCriteria2 : List Criterion :=
  [{ id := 1, name := "Impact", weight := 8 }, { id := 2, name := "Cost", weight := 5 }]

/-- Witness fixture: a winning result. -/
def exWinner : Result :=
  { id := 101, name := "Alpha", scores := fun cid => if cid = 1 then some 10 else none,
    isHighRisk := false, finalScore := 80 }

/-- Witness fixture: a runner-up result. -/
def exRunnerUp : Result :=
  { id := 102, name := "Beta", scores := fun _ => none, isHighRisk := false, finalScore := 50 }

/-- C3 witness: the range theorem applied to the spec's example 1. -/
theorem calculateScores_finalScore_range_witness :
    (∀ c ∈ exCriteria, (∃ n : ℤ, c.weight = (n : ℚ)) ∧ 1 ≤ c.weight ∧ c.weight ≤ 10) ∧
      (∀ o ∈ [exOptionA, exOptionC], ∀ cid : Nat, ∀ v : ℚ, o.scores cid = some v →
        (∃ n : ℤ, v = (n : ℚ)) ∧ 0 ≤ v ∧ v ≤ 10) ∧
      ((∃ n : ℤ, (15 : ℚ) = (n : ℚ)) ∧ 0 ≤ (15 : ℚ) ∧ (15 : ℚ) ≤ 30) ∧
      ∀ res ∈ calculateScores [exOptionA, exOptionC] exCriteria 15,
        0 ≤ res.finalScore ∧ res.finalScore ≤ 100 := by
  have hw : ∀ c ∈ exCriteria, (∃ n : ℤ, c.weight = (n : ℚ)) ∧ 1 ≤ c.weight ∧ c.weight ≤ 10 := by
    intro c hc
    simp only [exCriteria, List.mem_singleton] at hc
    subst hc
    exact ⟨⟨8, by decide⟩, by decide, by decide⟩
  have hs : ∀ o ∈ [exOptionA, exOptionC], ∀ cid : Nat, ∀ v : ℚ, o.scores cid = some v →
      (∃ n : ℤ, v = (n : ℚ)) ∧ 0 ≤ v ∧ v ≤ 10 := by
    intro o ho cid v hv
    simp only [List.mem_cons, List.mem_singleton, List.not_mem_nil, or_false] at ho
    rcases ho with rfl | rfl
    · by_cases hc : cid = 1
      · simp only [exOptionA, hc, if_pos, Option.some.injEq] at hv
        subst hv
        exact ⟨⟨10, by decide⟩, by decide, by decide⟩
      · simp [exOptionA, hc] at hv
    · simp only [exOptionC, Option.some.injEq] at hv
      subst hv
      exact ⟨⟨7, by decide⟩, by decide, by decide⟩
  have hr : (∃ n : ℤ, (15 : ℚ) = (n : ℚ)) ∧ 0 ≤ (15 : ℚ) ∧ (15 : ℚ) ≤ 30 :=
    ⟨⟨15, by decide⟩, by decide, by decide⟩
  exact ⟨hw, hs, hr, calculateScores_finalScore_range _ _ _ hw hs hr⟩

/-- C4 witness: zero total weight (empty criteria) on the example
options. -/
theorem calculateScores_zero_totalWeight_witness :
    totalWeight ([] : List Criterion) = 0 ∧
      calculateScores [exOptionA, exOptionB] [] 15 =
        [{ id := exOptionA.id, name := exOptionA.name, scores := exOptionA.scores,
            isHighRisk := exOptionA.isHighRisk, finalScore := 0 },
          { id := exOptionB.id, name := exOptionB.name, scores := exOptionB.scores,
            isHighRisk := exOptionB.isHighRisk, finalScore := 0 }] :=
  ⟨rfl, by rw [calculateScores_zero_totalWeight [exOptionA, exOptionB] [] 15 rfl]; rfl⟩

/-- C5 witness: risk monotonicity at risk factors 10 and 20 on the
high-risk example option. -/
theorem scoreOption_riskFactor_mono_witness :
    (0 : ℚ) ≤ 10 ∧ (10 : ℚ) ≤ 20 ∧ (20 : ℚ) ≤ 30 ∧
      ((exOptionC.isHighRisk = true →
        (scoreOption exCriteria 20 exOptionC).finalScore ≤
          (scoreOption exCriteria 10 exOptionC).finalScore) ∧
        (exOptionC.isHighRisk = false →
          scoreOption exCriteria 20 exOptionC = scoreOption exCriteria 10 exOptionC)) :=
  ⟨by decide, by decide, by decide,
    scoreOption_riskFactor_mono exCriteria exOptionC 10 20 (by decide) (by decide) (by decide)⟩

/-- C8 witness: field preservation for the first mapped result. -/
theorem mapped_result_preserves_fields_witness :
    0 < [exOptionA, exOptionB].length ∧
      ((([exOptionA, exOptionB].map (scoreOption exCriteria 15)).get ⟨0, by decide⟩).id
            = ([exOptionA, exOptionB].get ⟨0, by decide⟩).id ∧
        ((([exOptionA, exOptionB].map (scoreOption exCriteria 15)).get ⟨0, by decide⟩).name
            = ([exOptionA, exOptionB].get ⟨0, by decide⟩).name) ∧
        ((([exOptionA, exOptionB].map (scoreOption exCriteria 15)).get ⟨0, by decide⟩).scores
            = ([exOptionA, exOptionB].get ⟨0, by decide⟩).scores) ∧
        ((([exOptionA, exOptionB].map (scoreOption exCriteria 15)).get ⟨0, by decide⟩).isHighRisk
            = ([exOptionA, exOptionB].get ⟨0, by decide⟩).isHighRisk)) :=
  ⟨by decide, mapped_result_preserves_fields [exOptionA, exOptionB] exCriteria 15 0 (by decide)⟩

/-- C1 witness: the amended WARNING-containment theorem applied to the
both-high-risk counterexample input. -/
theorem generateAIExplanation_both_high_risk_warning_witness :
    cexWinnerC1.isHighRisk = true ∧ cexWinnerC1.finalScore ≠ 0 ∧
      cexRunnerUpC1.isHighRisk = true ∧
      strContains
        (generateAIExplanation (some cexWinnerC1) cexCriteriaC1 [cexWinnerC1, cexRunnerUpC1])
        ("WARNING: This option is high risk. Ensure the " ++
          (marginStr cexWinnerC1 cexRunnerUpC1 ++
            "% advantage is worth the potential volatility.")) = true :=
  ⟨rfl, by decide, rfl,
    generateAIExplanation_both_high_risk_warning cexWinnerC1 cexWinnerC1 cexRunnerUpC1 []
      cexCriteriaC1 rfl (by decide) rfl⟩

/-- C7 witness: the first-maximal theorem applied to two named
criteria. -/
theorem primaryStrength_first_max_witness :
    exCriteria2 ≠ [] ∧ (∀ c ∈ exCriteria2, c.name ≠ "") ∧
      ∃ i, ∃ hi : i < exCriteria2.length,
        primaryStrengthOf exWinner exCriteria2 = (exCriteria2.get ⟨i, hi⟩).name ∧
          (∀ c ∈ exCriteria2, getScore exWinner.scores c.id * c.weight ≤
            getScore exWinner.scores (exCriteria2.get ⟨i, hi⟩).id *
              (exCriteria2.get ⟨i, hi⟩).weight) ∧
          ∀ j, ∀ hj : j < exCriteria2.length, j < i →
            getScore exWinner.scores (exCriteria2.get ⟨j, hj⟩).id *
                (exCriteria2.get ⟨j, hj⟩).weight <
              getScore exWinner.scores (exCriteria2.get ⟨i, hi⟩).id *
                (exCriteria2.get ⟨i, hi⟩).weight := by
  have hne : exCriteria2 ≠ [] := List.cons_ne_nil _ _
  have hnames : ∀ c ∈ exCriteria2, c.name ≠ "" := by
    intro c hc
    simp only [exCriteria2, List.mem_cons, List.mem_singleton, List.not_mem_nil,
      or_false] at hc
    rcases hc with rfl | rfl <;> decide
  exact ⟨hne, hnames, primaryStrength_first_max exWinner exCriteria2 hne hnames⟩

/-- C10 witness: the empty-criteria fallback applied to a concrete
winner and runner-up. -/
theorem generateAIExplanation_empty_criteria_witness :
    exWinner.finalScore ≠ 0 ∧
      (generateAIExplanation (some exWinner) [] [exWinner, exRunnerUp] =
          composeAnalysis exWinner exRunnerUp "key metrics" ∧
        generateAIExplanation (some exWinner) [] [exWinner, exRunnerUp] ≠ insufficientMsg ∧
        strContains (generateAIExplanation (some exWinner) [] [exWinner, exRunnerUp])
          "key metrics" = true) :=
  ⟨by decide, generateAIExplanation_empty_criteria exWinner exWinner exRunnerUp [] (by decide)⟩

/-- C9 witness: a construction fault is contained, and the save step
is never reached. -/
theorem exportToPDF_contains_failures_witness :
    (ExportFaults.mk (some "render fault") none).constructionFault = some "render fault" ∧
      (exportToPDF ⟨some "render fault", none⟩ "2026-01-01" "My Decision" exCriteria []
          "narrative").2 = none ∧
      (∀ f, ExportEffect.fileSaved f ∉
        (exportToPDF ⟨some "render fault", none⟩ "2026-01-01" "My Decision" exCriteria []
          "narrative").1) ∧
      ExportEffect.alertShown exportAlertMsg ∈
        (exportToPDF ⟨some "render fault", none⟩ "2026-01-01" "My Decision" exCriteria []
          "narrative").1 := by
  have H := exportToPDF_contains_failures ⟨some "render fault", none⟩ "2026-01-01"
    "My Decision" exCriteria [] "narrative"
  exact ⟨rfl, H.1, (H.2.1 "render fault" rfl).1, (H.2.1 "render fault" rfl).2.2⟩

end Clarity
